import Mathlib

/-!
Verification of the lmarena proxy core: credential pool (`cookie_pool.py`),
retry/ban orchestration, payload builder and stream-frame parser
(`arena_client.py`).  Python machine state is embedded as explicit state
passing; fallible code returns `Option`/`Except`-like results.
-/

/-- `ArenaAPIError` from `arena_client.py`: message plus optional HTTP status. -/
structure ArenaAPIError where
  message : String
  statusCode : Option Nat
deriving DecidableEq, Repr

/-- `SSEChunk` dataclass: a parsed backend stream frame. -/
structure SSEChunk where
  text : Option String
  continueStream : Bool
deriving DecidableEq, Repr

/-- `CookiePool` state: the cookie list and the rotation cursor (`_index`). -/
structure CookiePool where
  cookies : List String
  index : Nat
deriving DecidableEq, Repr

/-- Python whitespace for `str.strip()`. -/
def pyWs (c : Char) : Bool :=
  c = ' ' ∨ c = '\t' ∨ c = '\n' ∨ c = '\r' ∨ c = '\x0b' ∨ c = '\x0c'

/-- Python `str.strip()`: drop leading and trailing whitespace. -/
def pyStrip (s : String) : String :=
  ⟨((s.toList.dropWhile pyWs).reverse.dropWhile pyWs).reverse⟩

/-- One step of the cleaning loop in `CookiePool.__init__`: strip, then drop
the cookie when empty or already seen. -/
def cleanStep (acc : List String) (c : String) : List String :=
  if pyStrip c = "" ∨ pyStrip c ∈ acc then acc else acc ++ [pyStrip c]

/-- The cleaning loop in `CookiePool.__init__`: strip each cookie, drop empties
and duplicates, preserving first-occurrence order. -/
def cleanCookies (cookies : List String) : List String :=
  cookies.foldl cleanStep []

/-- `CookiePool.__init__`: clean the cookie list; reject an empty result
(`ValueError`); the starting cursor is `random.randrange(len)`, modelled by the
parameter `start` taken modulo the pool size. -/
def CookiePool.init (cookies : List String) (start : Nat) : Option CookiePool :=
  if (cleanCookies cookies).isEmpty then none
  else some ⟨cleanCookies cookies, start % (cleanCookies cookies).length⟩

/-- `CookiePool.next`: return the cookie at the cursor and advance the cursor
modulo the current size.  An out-of-range cursor (Python `IndexError`, which
includes the empty pool) is `none`. -/
def CookiePool.next (p : CookiePool) : Option (String × CookiePool) :=
  if h : p.index < p.cookies.length then
    some (p.cookies.get ⟨p.index, h⟩, ⟨p.cookies, (p.index + 1) % p.cookies.length⟩)
  else none

/-- `CookiePool.ban`: no-op when the cookie is absent; otherwise remove it.
The returned flag is `true` exactly when the removal emptied the pool, in which
case Python raises `RuntimeError` after having already emptied `_cookies`. -/
def CookiePool.ban (p : CookiePool) (cookie : String) : CookiePool × Bool :=
  if cookie ∈ p.cookies then
    let remaining := p.cookies.filter (fun v => v ≠ cookie)
    if remaining.isEmpty then (⟨remaining, p.index⟩, true)
    else (⟨remaining, p.index % remaining.length⟩, false)
  else (p, false)

/-- Substring containment on character lists (Python `needle in haystack`). -/
def charsContain (needle : List Char) : List Char → Bool
  | [] => needle.isEmpty
  | c :: rest => needle.isPrefixOf (c :: rest) || charsContain needle rest

/-- Python `needle in haystack` for strings. -/
def strContains (haystack needle : String) : Bool :=
  charsContain needle.toList haystack.toList

/-- The fixed ban markers of `_should_ban_cookie`. -/
def banTriggers : List String :=
  ["invalid token", "not login", "usage limit", "too many concurrent requests",
   "rate limited"]

/-- Python `str.lower()` (ASCII case folding). -/
def pyLower (s : String) : String :=
  ⟨s.toList.map Char.toLower⟩

/-- `ArenaClient._should_ban_cookie`: status 401/403, or the lowercased message
contains one of the fixed markers. -/
def shouldBanCookie (exc : ArenaAPIError) : Bool :=
  if exc.statusCode = some 401 ∨ exc.statusCode = some 403 then true
  else banTriggers.any (fun trigger => strContains (pyLower exc.message) trigger)

/-- The `ArenaAPIError` raised by `_with_cookies` when the pool is empty. -/
def exhaustedError : ArenaAPIError :=
  ⟨"All arena-auth cookies are exhausted.", none⟩

/-- Result of one `_with_cookies` run: the value or the raised error, together
with the final pool state and the number of backend attempts (`func` calls).
`indexError` marks the unreachable out-of-range cursor; `outOfFuel` marks
exhausted loop fuel (never hit: the loop does at most `size + 1` iterations). -/
inductive RunResult (α : Type) where
  | ok (v : α) (pool : CookiePool) (calls : Nat)
  | apiError (e : ArenaAPIError) (pool : CookiePool) (calls : Nat)
  | indexError
  | outOfFuel
deriving DecidableEq, Repr

/-- Loop exit of `_with_cookies`: re-raise the last error if any, otherwise the
pool-exhausted error. -/
def finishLoop (lastExc : Option ArenaAPIError) (pool : CookiePool) (calls : Nat) :
    RunResult α :=
  match lastExc with
  | some e => .apiError e pool calls
  | none => .apiError exhaustedError pool calls

/-- The `while attempts < max_attempts` loop of `ArenaClient._with_cookies`.
State: pool, `attempts`, `max_attempts`, `last_exc`, plus a count of `func`
calls made so far.  Note the trailing `attempts += 1` of the Python loop body
is dead code (every branch returns, raises, continues, or breaks), so
`attempts` only advances on the ban path. -/
def withCookiesLoop (func : String → Except ArenaAPIError α) :
    Nat → CookiePool → Nat → Nat → Option ArenaAPIError → Nat → RunResult α
  | 0, _, _, _, _, _ => .outOfFuel
  | fuel + 1, pool, attempts, maxAttempts, lastExc, calls =>
    if attempts < maxAttempts then
      if pool.cookies.length = 0 then finishLoop lastExc pool calls
      else
        match pool.next with
        | none => .indexError
        | some (cookie, pool1) =>
          match func cookie with
          | .ok v => .ok v pool1 (calls + 1)
          | .error exc =>
            if shouldBanCookie exc then
              let banned := pool1.ban cookie
              if banned.2 then finishLoop (some exc) banned.1 (calls + 1)
              else
                withCookiesLoop func fuel banned.1 (attempts + 1)
                  (Nat.max 1 banned.1.cookies.length * 2) (some exc) (calls + 1)
            else .apiError exc pool1 (calls + 1)
    else finishLoop lastExc pool calls

/-- `ArenaClient._with_cookies`: raise pool-exhausted on an initially empty
pool, otherwise run the retry loop with `max_attempts = max(1, size) * 2`. -/
def withCookies (func : String → Except ArenaAPIError α) (pool : CookiePool) :
    RunResult α :=
  if pool.cookies.length = 0 then .apiError exhaustedError pool 0
  else
    withCookiesLoop func (pool.cookies.length + 1) pool 0
      (Nat.max 1 pool.cookies.length * 2) none 0

/-- The pool invariant: non-empty, duplicate-free, cursor in range. -/
def PoolInv (p : CookiePool) : Prop :=
  p.cookies ≠ [] ∧ p.cookies.Nodup ∧ p.index < p.cookies.length

/-! ## Payload builder (`ArenaClient._build_payload`, `_coerce_message_content`) -/

/-- `ChatMessageContentPart` from `models.py`. -/
structure ChatMessageContentPart where
  type : String
  text : Option String
deriving DecidableEq, Repr

/-- `ChatMessageContent = Union[str, List[ChatMessageContentPart]]`. -/
inductive MessageContent where
  | str (s : String)
  | parts (ps : List ChatMessageContentPart)
deriving DecidableEq, Repr

/-- `ChatMessage` from `models.py`. -/
structure ChatMessage where
  role : String
  content : MessageContent
deriving DecidableEq, Repr

/-- `ArenaClient._coerce_message_content`: strings pass through; for a list of
parts, keep the `text` of the parts whose `type` is `"text"` and whose `text`
is truthy (present and non-empty), joined with newlines.  The dict branch of
the Python code has the same semantics as the model-object branch. -/
def coerceMessageContent : MessageContent → String
  | .str s => s
  | .parts ps =>
    String.intercalate "\n"
      (ps.filterMap fun entry =>
        match entry.text with
        | some t => if entry.type = "text" ∧ t ≠ "" then some t else none
        | none => none)

/-- One entry of the `messages` array built by `_build_payload`.  The fields
`experimental_attachments` (always `[]`) and `failureReason` (always `None`)
are constant and omitted. -/
structure ArenaMessage where
  id : String
  role : String
  content : String
  parentMessageIds : List String
  participantPosition : String
  modelId : Option String
  evaluationSessionId : String
  status : String
deriving DecidableEq, Repr

/-- The payload dict returned by `_build_payload`. -/
structure EvalPayload where
  id : String
  mode : String
  modelAId : String
  userMessageId : String
  modelAMessageId : String
  messages : List ArenaMessage
  modality : String
deriving DecidableEq, Repr

/-- `MODEL_REGISTRY` lookup of the backend model id. -/
def modelRegistryId (name : String) : Option String :=
  if name = "gemini-2.5-pro-preview-05-06" then
    some "0337ee08-8305-40c0-b820-123ad42b60cf"
  else none

/-- Python truthiness of `previous_message_id` when forming `parent_ids`
(`None` and the empty string are falsy). -/
def pyParentIds : Option String → List String
  | some p => if p = "" then [] else [p]
  | none => []

/-- Result of `_build_payload`: the payload, a raised `ArenaAPIError`, or the
(unreachable for resolved models) `KeyError` of the registry lookup. -/
inductive BuildResult where
  | ok (p : EvalPayload)
  | apiError (e : ArenaAPIError)
  | keyError
deriving DecidableEq, Repr

/-- The message loop of `_build_payload`.  `ids` is the supply of fresh
`uuid4().hex` identifiers, consumed at index `k`, `k+1`, ...; the returned
tuple is (nodes built, next free id index, `previous_message_id`,
`last_user_message_id`). -/
def buildNodes (ids : Nat → String) (evaluationId modelId : String) :
    List ChatMessage → Nat → Option String → Option String →
    List ArenaMessage × Nat × Option String × Option String
  | [], k, prev, lastUser => ([], k, prev, lastUser)
  | m :: rest, k, prev, lastUser =>
    let messageId := ids k
    let role := if m.role = "system" then "user" else m.role
    let node : ArenaMessage :=
      { id := messageId
        role := role
        content := coerceMessageContent m.content
        parentMessageIds := pyParentIds prev
        participantPosition := "a"
        modelId := if role = "assistant" then some modelId else none
        evaluationSessionId := evaluationId
        status := "pending" }
    let lastUser1 := if role = "user" then some messageId else lastUser
    let result := buildNodes ids evaluationId modelId rest (k + 1) (some messageId) lastUser1
    (node :: result.1, result.2)

/-- The `ArenaAPIError` raised when no user-role node was seen. -/
def noUserMessageError : ArenaAPIError :=
  ⟨"Conversation must include at least one user message.", none⟩

/-- `ArenaClient._build_payload`: build one graph node per message (system
collapsed to user, content flattened, each node parented to its predecessor),
require a user node, then append the pending assistant placeholder and wrap
everything in the evaluation payload. -/
def buildPayload (ids : Nat → String) (evaluationId : String)
    (messages : List ChatMessage) (modelName : String) : BuildResult :=
  match modelRegistryId modelName with
  | none => .keyError
  | some modelId =>
    let built := buildNodes ids evaluationId modelId messages 0 none none
    match built.2.2.2 with
    | none => .apiError noUserMessageError
    | some lastUserId =>
      let modelMessageId := ids built.2.1
      let placeholder : ArenaMessage :=
        { id := modelMessageId
          role := "assistant"
          content := ""
          parentMessageIds := pyParentIds built.2.2.1
          participantPosition := "a"
          modelId := some modelId
          evaluationSessionId := evaluationId
          status := "pending" }
      .ok
        { id := evaluationId
          mode := "direct"
          modelAId := modelId
          userMessageId := lastUserId
          modelAMessageId := modelMessageId
          messages := built.1 ++ [placeholder]
          modality := "chat" }

/-! ## A model of `json.loads` (Python standard library)

The stream parser calls `json.loads` on error frames and on quoted `a0`
content.  We model JSON values and a strict recursive-descent parser:
objects, arrays, strings with the standard escapes (`\uXXXX` restricted to
single code units), strict numbers kept as their raw text, and the three
literals; trailing non-whitespace input is rejected, as in Python. -/

/-- JSON values; numbers keep their raw source text. -/
inductive Json where
  | null
  | bool (b : Bool)
  | num (raw : String)
  | str (s : String)
  | arr (elems : List Json)
  | obj (fields : List (String × Json))

/-- JSON insignificant whitespace. -/
def jsonWs (c : Char) : Bool :=
  c = ' ' ∨ c = '\t' ∨ c = '\n' ∨ c = '\r'

/-- Skip insignificant whitespace. -/
def skipWs (cs : List Char) : List Char :=
  cs.dropWhile jsonWs

/-- Hexadecimal digit value. -/
def hexVal (c : Char) : Option Nat :=
  if '0' ≤ c ∧ c ≤ '9' then some (c.toNat - '0'.toNat)
  else if 'a' ≤ c ∧ c ≤ 'f' then some (c.toNat - 'a'.toNat + 10)
  else if 'A' ≤ c ∧ c ≤ 'F' then some (c.toNat - 'A'.toNat + 10)
  else none

/-- Parse the body of a JSON string after the opening quote, returning the
decoded characters and the input after the closing quote. -/
def parseStringChars : Nat → List Char → Option (List Char × List Char)
  | 0, _ => none
  | _ + 1, [] => none
  | fuel + 1, c :: rest =>
    if c = '"' then some ([], rest)
    else if c = '\\' then
      match rest with
      | [] => none
      | e :: rest2 =>
        let unescaped : Option (Char × List Char) :=
          if e = '"' then some ('"', rest2)
          else if e = '\\' then some ('\\', rest2)
          else if e = '/' then some ('/', rest2)
          else if e = 'b' then some ('\x08', rest2)
          else if e = 'f' then some ('\x0c', rest2)
          else if e = 'n' then some ('\n', rest2)
          else if e = 'r' then some ('\r', rest2)
          else if e = 't' then some ('\t', rest2)
          else if e = 'u' then
            match rest2 with
            | h1 :: h2 :: h3 :: h4 :: rest3 =>
              match hexVal h1, hexVal h2, hexVal h3, hexVal h4 with
              | some v1, some v2, some v3, some v4 =>
                some (Char.ofNat (((v1 * 16 + v2) * 16 + v3) * 16 + v4), rest3)
              | _, _, _, _ => none
            | _ => none
          else none
        match unescaped with
        | some (d, rest3) =>
          match parseStringChars fuel rest3 with
          | some (tail, rem) => some (d :: tail, rem)
          | none => none
        | none => none
    else if c.toNat < 32 then none
    else
      match parseStringChars fuel rest with
      | some (tail, rem) => some (c :: tail, rem)
      | none => none

/-- Optional fractional part of a JSON number. -/
def parseFrac (cs : List Char) : Option (List Char × List Char) :=
  match cs with
  | '.' :: t =>
    let ds := t.takeWhile Char.isDigit
    if ds.isEmpty then none else some ('.' :: ds, t.dropWhile Char.isDigit)
  | _ => some ([], cs)

/-- Optional exponent part of a JSON number. -/
def parseExp (cs : List Char) : Option (List Char × List Char) :=
  match cs with
  | c :: t =>
    if c = 'e' ∨ c = 'E' then
      let signed : List Char × List Char :=
        match t with
        | s :: t2 => if s = '+' ∨ s = '-' then ([s], t2) else ([], t)
        | [] => ([], t)
      let ds := signed.2.takeWhile Char.isDigit
      if ds.isEmpty then none
      else some (c :: signed.1 ++ ds, signed.2.dropWhile Char.isDigit)
    else some ([], cs)
  | [] => some ([], [])

/-- Strict JSON number: optional minus, an integer part without leading
zeros, then optional fraction and exponent; the raw text is kept. -/
def parseNumber (cs : List Char) : Option (String × List Char) :=
  let signed : List Char × List Char :=
    match cs with
    | '-' :: t => (['-'], t)
    | _ => ([], cs)
  let intPart : Option (List Char × List Char) :=
    match signed.2 with
    | '0' :: t => some (['0'], t)
    | c :: t =>
      if c.isDigit then some (c :: t.takeWhile Char.isDigit, t.dropWhile Char.isDigit)
      else none
    | [] => none
  match intPart with
  | none => none
  | some (ip, r1) =>
    match parseFrac r1 with
    | none => none
    | some (fp, r2) =>
      match parseExp r2 with
      | none => none
      | some (ep, r3) => some (⟨signed.1 ++ ip ++ fp ++ ep⟩, r3)

mutual

/-- Parse one JSON value (fuel-bounded recursive descent). -/
def parseJsonValue : Nat → List Char → Option (Json × List Char)
  | 0, _ => none
  | fuel + 1, cs =>
    match skipWs cs with
    | [] => none
    | c :: rest =>
      if c = '"' then
        match parseStringChars (rest.length + 1) rest with
        | some (body, rem) => some (.str ⟨body⟩, rem)
        | none => none
      else if c = '\x7b' then parseObjBody fuel rest
      else if c = '[' then parseArrBody fuel rest
      else if c = 't' then
        if ['r', 'u', 'e'].isPrefixOf rest then some (.bool true, rest.drop 3) else none
      else if c = 'f' then
        if ['a', 'l', 's', 'e'].isPrefixOf rest then some (.bool false, rest.drop 4) else none
      else if c = 'n' then
        if ['u', 'l', 'l'].isPrefixOf rest then some (.null, rest.drop 3) else none
      else
        match parseNumber (c :: rest) with
        | some (raw, rem) => some (.num raw, rem)
        | none => none

/-- Parse an object body, positioned just after the opening brace. -/
def parseObjBody : Nat → List Char → Option (Json × List Char)
  | 0, _ => none
  | fuel + 1, cs =>
    match skipWs cs with
    | '\x7d' :: rest => some (.obj [], rest)
    | _ => parseObjFields fuel cs []

/-- Parse the comma-separated `"key": value` fields of an object. -/
def parseObjFields : Nat → List Char → List (String × Json) → Option (Json × List Char)
  | 0, _, _ => none
  | fuel + 1, cs, acc =>
    match skipWs cs with
    | '"' :: rest =>
      match parseStringChars (rest.length + 1) rest with
      | none => none
      | some (key, r1) =>
        match skipWs r1 with
        | ':' :: r2 =>
          match parseJsonValue fuel r2 with
          | none => none
          | some (v, r3) =>
            match skipWs r3 with
            | ',' :: r4 => parseObjFields fuel r4 (acc ++ [(⟨key⟩, v)])
            | '\x7d' :: r4 => some (.obj (acc ++ [(⟨key⟩, v)]), r4)
            | _ => none
        | _ => none
    | _ => none

/-- Parse an array body, positioned just after the opening bracket. -/
def parseArrBody : Nat → List Char → Option (Json × List Char)
  | 0, _ => none
  | fuel + 1, cs =>
    match skipWs cs with
    | ']' :: rest => some (.arr [], rest)
    | _ => parseArrElems fuel cs []

/-- Parse the comma-separated elements of an array. -/
def parseArrElems : Nat → List Char → List Json → Option (Json × List Char)
  | 0, _, _ => none
  | fuel + 1, cs, acc =>
    match parseJsonValue fuel cs with
    | none => none
    | some (v, r1) =>
      match skipWs r1 with
      | ',' :: r2 => parseArrElems fuel r2 (acc ++ [v])
      | ']' :: r2 => some (.arr (acc ++ [v]), r2)
      | _ => none

end

/-- `json.loads`: parse one JSON document, allowing only trailing
whitespace. -/
def jsonLoads (s : String) : Option Json :=
  match parseJsonValue (4 * (s.length + 2)) s.toList with
  | some (v, rest) => if (skipWs rest).isEmpty then some v else none
  | none => none

/-! ## Stream-frame parsing (`_parse_stream_payload`, `_unquote_text`) -/

/-- Python truthiness of a decoded JSON value (`if message:`).  A numeric
value is falsy when its mantissa digits are all zero. -/
def pyTruthy : Json → Bool
  | .null => false
  | .bool b => b
  | .str s => s ≠ ""
  | .num raw =>
    ¬ (raw.toList.takeWhile (fun c => c ≠ 'e' ∧ c ≠ 'E')).all
        (fun c => c = '0' ∨ c = '-' ∨ c = '.' ∨ c = '+')
  | .arr elems => ¬ elems.isEmpty
  | .obj fields => ¬ fields.isEmpty

/-- `dict.get` on decoded JSON object fields; on duplicate keys the last
occurrence wins, as in `json.loads`. -/
def dictGet (fields : List (String × Json)) (key : String) : Option Json :=
  (fields.reverse.find? (fun f => f.1 = key)).map (fun f => f.2)

/-- Python `repr` of a decoded JSON value (numbers rendered as their raw
source text). -/
def pyRepr : Json → String
  | .null => "None"
  | .bool true => "True"
  | .bool false => "False"
  | .num raw => raw
  | .str s => "'" ++ s ++ "'"
  | .arr elems =>
    "[" ++ String.intercalate ", " (elems.attach.map fun e => pyRepr e.1) ++ "]"
  | .obj fields =>
    "\x7b" ++
      String.intercalate ", "
        (fields.attach.map fun f => "'" ++ f.1.1 ++ "': " ++ pyRepr f.1.2) ++
      "\x7d"
termination_by j => sizeOf j
decreasing_by
  · have := List.sizeOf_lt_of_mem e.2
    simp only [Json.arr.sizeOf_spec]
    omega
  · have h1 := List.sizeOf_lt_of_mem f.2
    obtain ⟨⟨a, b⟩, hf⟩ := f
    simp only [Json.obj.sizeOf_spec, Prod.mk.sizeOf_spec] at *
    omega

/-- Python `str` of a decoded JSON value (`str(message)`). -/
def pyStr : Json → String
  | .str s => s
  | j => pyRepr j

/-- `data.get("message") or data.get("error")` followed by the `if message:`
truthiness test: the value to raise with, if any. -/
def pyGetMessage (fields : List (String × Json)) : Option Json :=
  let m : Option Json :=
    match dictGet fields "message" with
    | some j => if pyTruthy j then some j else dictGet fields "error"
    | none => dictGet fields "error"
  match m with
  | some j => if pyTruthy j then some j else none
  | none => none

/-- `ArenaClient._unquote_text`: when the value is wrapped in double quotes,
JSON-decode it (falling back to stripping the quote pair when the decode
fails); otherwise pass it through literally.  A successfully decoded quoted
value is always a JSON string, so the non-string arm is unreachable. -/
def unquoteText (value : String) : String :=
  if 2 ≤ value.length ∧ value.front = '"' ∧ value.back = '"' then
    match jsonLoads value with
    | some (.str s) => s
    | some j => pyStr j
    | none => (value.drop 1).dropRight 1
  else value

/-- Split a string at the first colon (`payload.split(":", 1)`). -/
def splitFirstColon (s : String) : String × String :=
  (⟨s.toList.takeWhile (fun c => c ≠ ':')⟩,
   ⟨(s.toList.dropWhile (fun c => c ≠ ':')).drop 1⟩)

/-- Python `s.startswith(c)` for a single-character needle. -/
def startsWithChar (s : String) (c : Char) : Bool :=
  match s.toList with
  | d :: _ => d = c
  | [] => false

/-- `ArenaClient._parse_stream_payload` applied to one line with the `data:`
prefix already stripped.  `.ok none` is a skipped (ignorable) frame; `.error`
models the raised `ArenaAPIError`.  A payload that starts with a brace and
parses as JSON always parses as an object, so the non-object arm is
unreachable. -/
def parseStreamPayload (payload : String) : Except ArenaAPIError (Option SSEChunk) :=
  if payload = "[DONE]" then .ok (some ⟨none, false⟩)
  else if startsWithChar payload '\x7b' then
    match jsonLoads payload with
    | none => .ok none
    | some (Json.obj fields) =>
      match pyGetMessage fields with
      | some j => .error ⟨pyStr j, none⟩
      | none => .ok none
    | some _ => .ok none
  else if ¬ strContains payload ":" then .ok none
  else if pyStrip (splitFirstColon payload).1 = "a0" then
    .ok (some ⟨some (unquoteText (pyStrip (splitFirstColon payload).2)), true⟩)
  else if pyStrip (splitFirstColon payload).1 = "ae"
      ∨ pyStrip (splitFirstColon payload).1 = "ad" then
    .ok (some ⟨none, false⟩)
  else if pyStrip (splitFirstColon payload).1 = "af"
      ∨ pyStrip (splitFirstColon payload).1 = "cookie" then
    .ok none
  else .ok none

/-- The spec's `StreamEvent` tagged variant (`Error` is carried by the
`Except` layer). -/
inductive StreamEvent where
  | text (fragment : String)
  | ended
  | ignorable
deriving DecidableEq, Repr

/-- The spec's classification rules for one backend line, written from the
spec's words: literal `[DONE]` gives `End`; a line starting with a brace is
parsed as JSON and raises the text of a carried `message`/`error` field,
otherwise is `Ignorable` (unparseable JSON is skipped); otherwise split once
on the first colon (prefix and content whitespace-stripped): `a0` gives
`Text` of the unquoted content, `ae`/`ad` give `End`, `af`/`cookie` and every
other prefix give `Ignorable`; a line with no colon and no brace is
`Ignorable`.  "Carries a `message`/`error` field" is read as the field being
present and truthy, matching `dict.get` plus the `or`-chain. -/
def specStreamClassify (line : String) : Except ArenaAPIError StreamEvent :=
  if line = "[DONE]" then .ok .ended
  else if startsWithChar line '\x7b' then
    match jsonLoads line with
    | none => .ok .ignorable
    | some (Json.obj fields) =>
      match pyGetMessage fields with
      | some j => .error ⟨pyStr j, none⟩
      | none => .ok .ignorable
    | some _ => .ok .ignorable
  else if ¬ strContains line ":" then .ok .ignorable
  else if pyStrip (splitFirstColon line).1 = "a0" then
    .ok (.text (unquoteText (pyStrip (splitFirstColon line).2)))
  else if pyStrip (splitFirstColon line).1 = "ae"
      ∨ pyStrip (splitFirstColon line).1 = "ad" then
    .ok .ended
  else if pyStrip (splitFirstColon line).1 = "af"
      ∨ pyStrip (splitFirstColon line).1 = "cookie" then
    .ok .ignorable
  else .ok .ignorable

/-- How the code's `SSEChunk`-or-skip results encode the spec's events. -/
def eventToChunk : StreamEvent → Option SSEChunk
  | .text fragment => some ⟨some fragment, true⟩
  | .ended => some ⟨none, false⟩
  | .ignorable => none

/-! ## Response aggregation and SSE re-encoding
(`ArenaClient.chat_completion` / `_emit_sse_events`) -/

/-- `DeltaMessage` from `models.py`. -/
structure DeltaMessage where
  role : Option String
  content : Option String
deriving DecidableEq, Repr

/-- One outward server-sent event, abstracted over JSON serialization: a
completion chunk (its delta and `finish_reason`) or the `data: [DONE]`
sentinel. -/
inductive SSEEvent where
  | chunk (delta : DeltaMessage) (finishReason : Option String)
  | done
deriving DecidableEq, Repr

/-- The accumulation loop of `chat_completion.execute`: collect truthy chunk
texts, stopping after the first chunk with `continue_stream = False`. -/
def accumulateStream : List SSEChunk → List String
  | [] => []
  | c :: rest =>
    let acc : List String :=
      match c.text with
      | some t => if t ≠ "" then [t] else []
      | none => []
    if c.continueStream then acc ++ accumulateStream rest else acc

/-- `Choice` as used in the aggregated response. -/
structure AggChoice where
  index : Nat
  message : ChatMessage
  finishReason : Option String
deriving DecidableEq, Repr

/-- `ChatCompletionResponse` from `models.py` (the unused `usage` field is
omitted). -/
structure ChatCompletionResponse where
  id : String
  object : String
  created : Nat
  model : String
  choices : List AggChoice
deriving DecidableEq, Repr

/-- The body of `chat_completion.execute` with the parsed backend stream
supplied as a list: join the accumulated fragments and wrap them in a single
assistant choice with finish reason `"stop"`. -/
def executeAggregate (responseId : String) (createdTs : Nat) (resolvedModel : String)
    (stream : List SSEChunk) : ChatCompletionResponse :=
  { id := responseId
    object := "chat.completion"
    created := createdTs
    model := resolvedModel
    choices :=
      [{ index := 0
         message := ⟨"assistant", .str (String.join (accumulateStream stream))⟩
         finishReason := some "stop" }] }

/-- The emission loop of `ArenaClient._emit_sse_events` over an unfailing
backend stream, with `role_sent` threaded: a truthy chunk text emits a delta
carrying the one-time role marker; a chunk with `continue_stream = False`
emits the empty-delta stop chunk and breaks; loop completion (with or without
break) yields the `[DONE]` sentinel. -/
def emitLoop : List SSEChunk → Bool → List SSEEvent
  | [], _ => [.done]
  | c :: rest, roleSent =>
    let hasText : Bool :=
      match c.text with
      | some t => t ≠ ""
      | none => false
    let textEvents : List SSEEvent :=
      if hasText then
        [.chunk ⟨if roleSent then none else some "assistant", c.text⟩ none]
      else []
    let roleSent1 := roleSent || hasText
    if c.continueStream then textEvents ++ emitLoop rest roleSent1
    else textEvents ++ [.chunk ⟨none, none⟩ (some "stop"), .done]

/-- `ArenaClient._emit_sse_events` (`role_sent` starts false). -/
def emitSSEEvents (stream : List SSEChunk) : List SSEEvent :=
  emitLoop stream false

/-- The backend stream of the spec's streaming example:
`Text("Hi"), Text(" there"), End`. -/
def demoStream : List SSEChunk :=
  [⟨some "Hi", true⟩, ⟨some " there", true⟩, ⟨none, false⟩]

/-! ## Auxiliary definitions used by the claim statements -/

/-- Three consecutive `next()` calls. -/
def nextThree (p : CookiePool) : Option (List String × CookiePool) :=
  match p.next with
  | none => none
  | some (c1, p1) =>
    match p1.next with
    | none => none
    | some (c2, p2) =>
      match p2.next with
      | none => none
      | some (c3, p3) => some ([c1, c2, c3], p3)

/-- One pool operation: a `next()` checkout or a `ban(cookie)`. -/
inductive PoolOp where
  | checkout
  | banOp (cookie : String)
deriving DecidableEq, Repr

/-- Apply one pool operation to the pool state. -/
def applyOp (p : CookiePool) : PoolOp → CookiePool
  | .checkout =>
    match p.next with
    | some r => r.2
    | none => p
  | .banOp c => (p.ban c).1

/-- Apply a sequence of pool operations. -/
def applyOps (p : CookiePool) (ops : List PoolOp) : CookiePool :=
  ops.foldl applyOp p

/-- The spec's wording for structured-content flattening, amended: the text
of every `"text"`-typed part with non-empty text, joined with newline
separators; non-text parts and text parts with empty or missing text are
dropped. -/
def specFlatten (ps : List ChatMessageContentPart) : String :=
  String.intercalate "\n"
    ((ps.filter fun e => e.type = "text" ∧ e.text.getD "" ≠ "").map
      fun e => e.text.getD "")

/-- The error raised in a `RunResult`, if any. -/
def RunResult.errOf : RunResult α → Option ArenaAPIError
  | .apiError e _ _ => some e
  | _ => none

/-- The final pool recorded in a `RunResult`. -/
def RunResult.poolOf : RunResult α → CookiePool
  | .ok _ p _ => p
  | .apiError _ p _ => p
  | _ => ⟨[], 0⟩

/-- The number of backend attempts recorded in a `RunResult`. -/
def RunResult.callsOf : RunResult α → Nat
  | .ok _ _ n => n
  | .apiError _ _ n => n
  | _ => 0

/-- The parent chain of the payload graph, after a node with id `prevId`:
each node's parent-ids are exactly the id of its immediate predecessor. -/
def linkedAfter : String → List ArenaMessage → Prop
  | _, [] => True
  | prevId, n :: rest => n.parentMessageIds = [prevId] ∧ linkedAfter n.id rest

/-- The parent chain of the whole payload graph: the first node has no
parents, every later node's parent-ids are exactly its predecessor's id. -/
def wellLinked : List ArenaMessage → Prop
  | [] => True
  | n :: rest => n.parentMessageIds = [] ∧ linkedAfter n.id rest

/-- The payload carried by a `BuildResult`, when building succeeded. -/
def BuildResult.payloadOf : BuildResult → Option EvalPayload
  | .ok p => some p
  | _ => none

/-- The role collapse of `_build_payload` (`system` becomes `user`). -/
def collapsedRole (m : ChatMessage) : String :=
  if m.role = "system" then "user" else m.role

/-! ## Helper lemmas about the credential pool -/

theorem cookiePool_ban_spec (p : CookiePool) (c : String) :
    p.ban c =
      if c ∈ p.cookies then
        if (p.cookies.filter (fun v => v ≠ c)).isEmpty then
          (⟨p.cookies.filter (fun v => v ≠ c), p.index⟩, true)
        else
          (⟨p.cookies.filter (fun v => v ≠ c),
            p.index % (p.cookies.filter (fun v => v ≠ c)).length⟩, false)
      else (p, false) := rfl

theorem cookiePool_next_spec {p : CookiePool} {c : String} {q : CookiePool}
    (h : p.next = some (c, q)) :
    c ∈ p.cookies ∧ q.cookies = p.cookies ∧
      q.index = (p.index + 1) % p.cookies.length := by
  unfold CookiePool.next at h
  split at h
  case isTrue hlt =>
    simp only [Option.some.injEq, Prod.mk.injEq] at h
    obtain ⟨hc, hq⟩ := h
    subst hq
    exact ⟨hc ▸ List.get_mem _ _ _, rfl, rfl⟩
  case isFalse => exact absurd h (by simp)

theorem cookiePool_next_of_inv {p : CookiePool} (hinv : PoolInv p) :
    p.next = some (p.cookies.get ⟨p.index, hinv.2.2⟩,
      ⟨p.cookies, (p.index + 1) % p.cookies.length⟩) := by
  unfold CookiePool.next
  rw [dif_pos hinv.2.2]

theorem filter_ne_nil_iff {l : List String} {c : String} :
    l.filter (fun v => v ≠ c) = [] ↔ ∀ x ∈ l, x = c := by
  rw [List.filter_eq_nil_iff]
  simp

theorem nodup_all_eq {l : List String} {c : String}
    (hd : l.Nodup) (hall : ∀ x ∈ l, x = c) (hmem : c ∈ l) : l = [c] := by
  cases l with
  | nil => cases hmem
  | cons x t =>
    have hx : x = c := hall x (List.mem_cons_self x t)
    subst hx
    have ht : t = [] := by
      rw [List.eq_nil_iff_forall_not_mem]
      intro y hy
      have : y = x := hall y (List.mem_cons_of_mem _ hy)
      exact (List.nodup_cons.mp hd).1 (this ▸ hy)
    rw [ht]

/-- C7: banning the last remaining credential empties the pool and is
reported as a hard failure (the raised `RuntimeError`, the `true` flag);
afterwards `next()` on the empty pool fails, and the orchestrator checkout fails with the pool-exhausted error. -/
theorem c7_ban_last_credential (p : CookiePool) (c : String)
    (f : String → Except ArenaAPIError Unit)
    (hmem : c ∈ p.cookies) (hall : ∀ x ∈ p.cookies, x = c) :
    p.ban c = (⟨[], p.index⟩, true) ∧
    (CookiePool.mk [] p.index).next = none ∧
    withCookies f ⟨[], p.index⟩ = .apiError exhaustedError ⟨[], p.index⟩ 0 := by
  have hfil : p.cookies.filter (fun v => v ≠ c) = [] := filter_ne_nil_iff.mpr hall
  refine ⟨?_, ?_, ?_⟩
  · rw [cookiePool_ban_spec, if_pos hmem, hfil]
    simp
  · unfold CookiePool.next
    simp
  · unfold withCookies
    simp

theorem c7_witness :
    (CookiePool.mk ["A"] 0).ban "A" = (⟨[], 0⟩, true) ∧
    (CookiePool.mk [] 0).next = none ∧
    withCookies (fun _ => Except.ok ()) ⟨[], 0⟩
      = .apiError exhaustedError ⟨[], 0⟩ 0 :=
  c7_ban_last_credential ⟨["A"], 0⟩ "A" (fun _ => .ok ()) (by decide) (by decide)

theorem applyOp_not_mem {x : String} {p : CookiePool}
    (h : x ∉ p.cookies) (op : PoolOp) : x ∉ (applyOp p op).cookies := by
  cases op with
  | checkout =>
    unfold applyOp
    cases hn : p.next with
    | none => exact h
    | some r =>
      obtain ⟨c, q⟩ := r
      have hs := cookiePool_next_spec hn
      simpa only [hs.2.1] using h
  | banOp c =>
    show x ∉ ((p.ban c).1).cookies
    rw [cookiePool_ban_spec]
    split
    · split
      · exact fun hx => h (List.mem_filter.mp hx).1
      · exact fun hx => h (List.mem_filter.mp hx).1
    · exact h

theorem applyOps_not_mem {x : String} :
    ∀ (ops : List PoolOp) (p : CookiePool),
      x ∉ p.cookies → x ∉ (applyOps p ops).cookies
  | [], _, h => h
  | op :: ops, p, h => applyOps_not_mem ops (applyOp p op) (applyOp_not_mem h op)

/-- C6: from any cursor position of the pool `[A, B, C]`, three consecutive
`next()` calls return each credential exactly once (a permutation of the
pool); after `ban(B)` the pool size is 2 and no sequence of further pool
operations can make `next()` return `B` again. -/
theorem c6_rotation_and_ban (i : Nat) (h : i < 3) (ops : List PoolOp) :
    (∃ l q, nextThree ⟨["A", "B", "C"], i⟩ = some (l, q) ∧ l.Perm ["A", "B", "C"]) ∧
    ((CookiePool.mk ["A", "B", "C"] i).ban "B").1.cookies.length = 2 ∧
    ∀ c q, (applyOps ((CookiePool.mk ["A", "B", "C"] i).ban "B").1 ops).next
        = some (c, q) → c ≠ "B" := by
  interval_cases i <;>
    exact ⟨⟨_, _, rfl, by decide⟩, by decide,
      fun c q hn hceq =>
        applyOps_not_mem ops _ (by decide) (hceq ▸ (cookiePool_next_spec hn).1)⟩

theorem c6_witness :
    ((∃ l q, nextThree ⟨["A", "B", "C"], 0⟩ = some (l, q) ∧ l.Perm ["A", "B", "C"]) ∧
     ((CookiePool.mk ["A", "B", "C"] 0).ban "B").1.cookies.length = 2 ∧
     ∀ c q, (applyOps ((CookiePool.mk ["A", "B", "C"] 0).ban "B").1 []).next
         = some (c, q) → c ≠ "B") :=
  c6_rotation_and_ban 0 (by decide) []

/-! ## Construction cleaning and the pool invariant -/

theorem cleanFold_nodup :
    ∀ (raw acc : List String), acc.Nodup → (raw.foldl cleanStep acc).Nodup
  | [], _, h => h
  | c :: raw, acc, h => by
    have hstep : (cleanStep acc c).Nodup := by
      unfold cleanStep
      split
      · exact h
      next hcond =>
        push_neg at hcond
        rw [List.nodup_append]
        refine ⟨h, List.nodup_singleton _, ?_⟩
        intro y hy hz
        rw [List.mem_singleton] at hz
        exact hcond.2 (hz ▸ hy)
    exact cleanFold_nodup raw (cleanStep acc c) hstep

theorem cleanFold_mem :
    ∀ (raw acc : List String) (x : String),
      x ∈ raw.foldl cleanStep acc → x ∈ acc ∨ (x ≠ "" ∧ ∃ y ∈ raw, x = pyStrip y)
  | [], _, _, h => Or.inl h
  | c :: raw, acc, x, h => by
    rcases cleanFold_mem raw (cleanStep acc c) x h with hin | ⟨hne, y, hy, hxy⟩
    · unfold cleanStep at hin
      split at hin
      · exact Or.inl hin
      next hcond =>
        push_neg at hcond
        rcases List.mem_append.mp hin with h1 | h2
        · exact Or.inl h1
        · have hx : x = pyStrip c := by simpa using h2
          refine Or.inr ⟨by rw [hx]; exact hcond.1, c, List.mem_cons_self c raw, hx⟩
    · exact Or.inr ⟨hne, y, List.mem_cons_of_mem _ hy, hxy⟩

/-- C10: construction strips each token, drops empty and duplicate tokens and
rejects an input yielding none; the invariant (non-empty, duplicate-free,
cursor in range) holds after construction and is preserved by `next()` and by
every non-emptying `ban()`, and `next()` always returns a pool member. -/
theorem c10_pool_invariant :
    (∀ raw start p, CookiePool.init raw start = some p →
        PoolInv p ∧ ∀ x ∈ p.cookies, x ≠ "" ∧ ∃ y ∈ raw, x = pyStrip y) ∧
    (∀ raw start, cleanCookies raw = [] → CookiePool.init raw start = none) ∧
    (∀ p c q, PoolInv p → p.next = some (c, q) → c ∈ p.cookies ∧ PoolInv q) ∧
    (∀ p c q, PoolInv p → p.ban c = (q, false) → PoolInv q) := by
  refine ⟨?_, ?_, ?_, ?_⟩
  · intro raw start p hp
    unfold CookiePool.init at hp
    split at hp
    · exact absurd hp (by simp)
    next hne =>
      have hnil : cleanCookies raw ≠ [] := by
        intro hcon
        exact hne (by rw [hcon]; rfl)
      simp only [Option.some.injEq] at hp
      subst hp
      constructor
      · exact ⟨hnil, cleanFold_nodup raw [] List.nodup_nil,
          Nat.mod_lt _ (List.length_pos.mpr hnil)⟩
      · intro x hx
        rcases cleanFold_mem raw [] x hx with h0 | ⟨hne2, y, hy, hxy⟩
        · cases h0
        · exact ⟨hne2, y, hy, hxy⟩
  · intro raw start h
    unfold CookiePool.init
    simp [h]
  · intro p c q hinv hn
    have hs := cookiePool_next_spec hn
    have hpos : 0 < p.cookies.length := List.length_pos.mpr hinv.1
    refine ⟨hs.1, ?_, ?_, ?_⟩
    · rw [hs.2.1]; exact hinv.1
    · rw [hs.2.1]; exact hinv.2.1
    · rw [hs.2.2, hs.2.1]; exact Nat.mod_lt _ hpos
  · intro p c q hinv hb
    rw [cookiePool_ban_spec] at hb
    split at hb
    next hmem =>
      split at hb
      · exact absurd hb (by simp)
      next hne =>
        simp only [Prod.mk.injEq] at hb
        obtain ⟨hq, -⟩ := hb
        subst hq
        have hfl : p.cookies.filter (fun v => v ≠ c) ≠ [] := by
          intro hcon
          exact hne (by rw [hcon]; rfl)
        exact ⟨hfl, hinv.2.1.filter _, Nat.mod_lt _ (List.length_pos.mpr hfl)⟩
    next =>
      simp only [Prod.mk.injEq] at hb
      obtain ⟨hq, -⟩ := hb
      subst hq
      exact hinv

/-! ## C9: non-credential errors surface immediately -/

/-- C9: when the first checked-out credential fails with an error that is not
credential-related, the orchestrator surfaces exactly that error after one
attempt, no second credential is checked out, and the pool membership is
unchanged (only the rotation cursor advanced). -/
theorem c9_non_credential_error_immediate {α : Type} (p : CookiePool)
    (f : String → Except ArenaAPIError α) (c : String) (p1 : CookiePool)
    (e : ArenaAPIError) (hinv : PoolInv p) (hnext : p.next = some (c, p1))
    (hf : f c = .error e) (hban : shouldBanCookie e = false) :
    withCookies f p = .apiError e p1 1 ∧ p1.cookies = p.cookies := by
  have hlen0 : ¬ p.cookies.length = 0 := by
    intro hcon
    exact hinv.1 (List.length_eq_zero.mp hcon)
  have hmax : 0 < Nat.max 1 p.cookies.length * 2 :=
    Nat.mul_pos (Nat.lt_of_lt_of_le Nat.zero_lt_one (Nat.le_max_left _ _))
      (by norm_num)
  constructor
  · unfold withCookies
    rw [if_neg hlen0]
    rw [withCookiesLoop]
    rw [if_pos hmax, if_neg hlen0, hnext]
    dsimp only
    rw [hf]
    simp [hban]
  · exact (cookiePool_next_spec hnext).2.1

theorem c9_witness :
    withCookies (fun _ => Except.error (⟨"bad payload", some 400⟩ : ArenaAPIError))
        (⟨["A", "B"], 0⟩ : CookiePool)
      = (.apiError ⟨"bad payload", some 400⟩ ⟨["A", "B"], 1⟩ 1 : RunResult Unit) ∧
    (CookiePool.mk ["A", "B"] 1).cookies = (CookiePool.mk ["A", "B"] 0).cookies :=
  c9_non_credential_error_immediate ⟨["A", "B"], 0⟩
    (fun _ => Except.error ⟨"bad payload", some 400⟩) "A" ⟨["A", "B"], 1⟩
    ⟨"bad payload", some 400⟩ ⟨by decide, by decide, by decide⟩ (by decide) rfl
    (by decide)

/-! ## C8: content flattening -/

theorem flatten_lists_eq :
    ∀ ps : List ChatMessageContentPart,
      (ps.filterMap fun entry =>
          match entry.text with
          | some t => if entry.type = "text" ∧ t ≠ "" then some t else none
          | none => none)
        = ((ps.filter fun e => e.type = "text" ∧ e.text.getD "" ≠ "").map
            fun e => e.text.getD "")
  | [] => rfl
  | e :: rest => by
    rw [List.filterMap_cons, List.filter_cons]
    cases he : e.text with
    | none =>
      have hcond : ¬ (e.type = "text" ∧ e.text.getD "" ≠ "") := by
        rw [he]
        simp
      simp [he, hcond, flatten_lists_eq rest]
    | some t =>
      by_cases ht : e.type = "text" ∧ t ≠ ""
      · have hcond : e.type = "text" ∧ e.text.getD "" ≠ "" := by
          rw [he]
          simpa using ht
        simp [he, ht, hcond, flatten_lists_eq rest]
      · have hcond : ¬ (e.type = "text" ∧ e.text.getD "" ≠ "") := by
          rw [he]
          simpa using ht
        simp [he, ht, hcond, flatten_lists_eq rest]

/-- C8 (amended): string content passes through unchanged; structured content
flattens to the texts of the `"text"`-typed parts with non-empty text, joined
with newlines — parts with empty or missing text are dropped along with
non-text parts. -/
theorem c8_flatten_amended (s : String) (ps : List ChatMessageContentPart) :
    coerceMessageContent (.str s) = s ∧
    coerceMessageContent (.parts ps) = specFlatten ps := by
  refine ⟨rfl, ?_⟩
  simp only [coerceMessageContent, specFlatten]
  rw [flatten_lists_eq]

/-- C8, the claim as stated is false: a `"text"`-typed part whose text is the
empty string is dropped entirely (Python truthiness), so it does not
contribute an empty position among the newline-separated pieces. -/
theorem c8_counterexample :
    coerceMessageContent (.parts [⟨"text", some ""⟩, ⟨"text", some "b"⟩]) = "b" ∧
    coerceMessageContent (.parts [⟨"text", some ""⟩, ⟨"text", some "b"⟩]) ≠ "\nb" := by
  decide

/-! ## C4: aggregation and streaming re-encoding of the demo stream -/

/-- C4: for the backend stream `Text("Hi"), Text(" there"), End`, the
aggregated completion carries content `"Hi there"` with finish reason
`"stop"`, and the streaming path emits exactly three chunks — role marker
plus `"Hi"`, then `" there"` alone, then an empty delta with the stop
reason — followed by the `[DONE]` sentinel. -/
theorem c4_demo_stream (responseId : String) (createdTs : Nat) (resolvedModel : String) :
    executeAggregate responseId createdTs resolvedModel demoStream
      = { id := responseId, object := "chat.completion", created := createdTs,
          model := resolvedModel,
          choices := [⟨0, ⟨"assistant", .str "Hi there"⟩, some "stop"⟩] } ∧
    emitSSEEvents demoStream
      = [.chunk ⟨some "assistant", some "Hi"⟩ none,
         .chunk ⟨none, some " there"⟩ none,
         .chunk ⟨none, none⟩ (some "stop"), .done] :=
  ⟨rfl, by decide⟩

/-! ## C2: conversations without a user message -/

theorem buildNodes_lastUser_of_no_user (ids : Nat → String) (eid mid : String) :
    ∀ (ms : List ChatMessage) (k : Nat) (prev lu : Option String),
      (∀ m ∈ ms, collapsedRole m ≠ "user") →
      (buildNodes ids eid mid ms k prev lu).2.2.2 = lu
  | [], _, _, _, _ => rfl
  | m :: rest, k, prev, lu, h => by
    have hm : (if m.role = "system" then "user" else m.role) ≠ "user" :=
      h m (List.mem_cons_self m rest)
    unfold buildNodes
    dsimp only
    rw [if_neg hm]
    exact buildNodes_lastUser_of_no_user ids eid mid rest (k + 1) _ lu
      (fun x hx => h x (List.mem_cons_of_mem _ hx))

/-- C2 (amended): the payload builder fails with the no-user-message error
exactly on the empty list and on lists whose messages are all
assistant-role; a system-role message does not trigger the failure because
the role collapse turns it into a user node before the check. -/
theorem c2_no_user_message (ids : Nat → String) (eid : String) (ms : List ChatMessage)
    (h : ms = [] ∨ ∀ m ∈ ms, m.role = "assistant") :
    buildPayload ids eid ms "gemini-2.5-pro-preview-05-06"
      = .apiError noUserMessageError := by
  have hnr : ∀ m ∈ ms, collapsedRole m ≠ "user" := by
    rcases h with rfl | h
    · intro m hm
      cases hm
    · intro m hm
      have hr := h m hm
      unfold collapsedRole
      rw [hr]
      decide
  unfold buildPayload
  have hreg : modelRegistryId "gemini-2.5-pro-preview-05-06"
      = some "0337ee08-8305-40c0-b820-123ad42b60cf" := rfl
  rw [hreg]
  dsimp only
  rw [buildNodes_lastUser_of_no_user ids eid _ ms 0 none none hnr]

theorem c2_witness :
    buildPayload (fun j => "n" ++ toString j) "e" [⟨"assistant", .str "x"⟩]
        "gemini-2.5-pro-preview-05-06" = .apiError noUserMessageError :=
  c2_no_user_message _ _ _ (Or.inr (by decide))

/-- C2, the claim as stated is false: a list containing only a system-role
message does not fail — the system role is collapsed to user before the
user-message check, so the build succeeds and produces a payload. -/
theorem c2_counterexample :
    buildPayload (fun j => "n" ++ toString j) "e" [⟨"system", .str "hi"⟩]
        "gemini-2.5-pro-preview-05-06"
      = .ok
          { id := "e", mode := "direct",
            modelAId := "0337ee08-8305-40c0-b820-123ad42b60cf",
            userMessageId := "n0", modelAMessageId := "n1",
            messages :=
              [⟨"n0", "user", "hi", [], "a", none, "e", "pending"⟩,
               ⟨"n1", "assistant", "", ["n0"], "a",
                some "0337ee08-8305-40c0-b820-123ad42b60cf", "e", "pending"⟩],
            modality := "chat" } := by
  decide

/-! ## C3: stream-frame classification -/

/-- C3: the stream-frame parser classifies every single line exactly by the
spec's rules — shown as agreement, over the same JSON model, with the
spec-side classifier `specStreamClassify` under the encoding `eventToChunk` —
and, concretely, quoted and unquoted `a0` content both yield the text
`"hello"`, `[DONE]` and `ad:` both end the stream, and a JSON error frame
raises the carried message `"boom"`. -/
theorem c3_stream_classification :
    (∀ line : String,
      parseStreamPayload line = (specStreamClassify line).map eventToChunk) ∧
    parseStreamPayload "a0:\"hello\"" = .ok (some ⟨some "hello", true⟩) ∧
    parseStreamPayload "a0:hello" = .ok (some ⟨some "hello", true⟩) ∧
    parseStreamPayload "[DONE]" = .ok (some ⟨none, false⟩) ∧
    parseStreamPayload "ad:" = .ok (some ⟨none, false⟩) ∧
    parseStreamPayload "\x7b\"error\":\"boom\"\x7d" = .error ⟨"boom", none⟩ := by
  refine ⟨?_, rfl, rfl, rfl, rfl, rfl⟩
  intro line
  unfold parseStreamPayload specStreamClassify
  split
  · rfl
  · split
    · cases jsonLoads line with
      | none => rfl
      | some j =>
        cases j with
        | obj fields =>
          dsimp only
          cases pyGetMessage fields with
          | none => rfl
          | some m => rfl
        | null => rfl
        | bool b => rfl
        | num raw => rfl
        | str s2 => rfl
        | arr elems => rfl
    · split
      · rfl
      · split
        · rfl
        · split
          · rfl
          · split
            · rfl
            · rfl

theorem c3_witness :
    parseStreamPayload "af:\x7b\"x\":1\x7d"
      = (specStreamClassify "af:\x7b\"x\":1\x7d").map eventToChunk :=
  c3_stream_classification.1 "af:\x7b\"x\":1\x7d"

/-! ## C5: payload graph structure -/

theorem buildNodes_length (ids : Nat → String) (eid mid : String) :
    ∀ (ms : List ChatMessage) (k : Nat) (prev lu : Option String),
      (buildNodes ids eid mid ms k prev lu).1.length = ms.length
  | [], _, _, _ => rfl
  | m :: rest, k, prev, lu => by
    unfold buildNodes
    dsimp only
    rw [List.length_cons, buildNodes_length ids eid mid rest (k + 1) _ _]
    rfl

theorem buildNodes_linkedAfter (ids : Nat → String) (eid mid : String)
    (hids : ∀ j, ids j ≠ "") :
    ∀ (ms : List ChatMessage) (k : Nat) (prevId : String) (lu : Option String)
      (trailer : ArenaMessage),
      prevId ≠ "" →
      trailer.parentMessageIds
        = pyParentIds (buildNodes ids eid mid ms k (some prevId) lu).2.2.1 →
      linkedAfter prevId ((buildNodes ids eid mid ms k (some prevId) lu).1 ++ [trailer])
  | [], k, prevId, lu, trailer, hp, ht => by
    unfold buildNodes at ht ⊢
    dsimp only at ht ⊢
    rw [List.nil_append]
    refine ⟨?_, trivial⟩
    rw [ht]
    unfold pyParentIds
    dsimp only
    rw [if_neg hp]
  | m :: rest, k, prevId, lu, trailer, hp, ht => by
    unfold buildNodes at ht ⊢
    dsimp only at ht ⊢
    rw [List.cons_append]
    refine ⟨?_, ?_⟩
    · show pyParentIds (some prevId) = [prevId]
      unfold pyParentIds
      dsimp only
      rw [if_neg hp]
    · exact buildNodes_linkedAfter ids eid mid hids rest (k + 1) (ids k) _ trailer
        (hids k) ht

theorem buildNodes_wellLinked (ids : Nat → String) (eid mid : String)
    (hids : ∀ j, ids j ≠ "") :
    ∀ (ms : List ChatMessage) (k : Nat) (lu : Option String) (trailer : ArenaMessage),
      trailer.parentMessageIds
        = pyParentIds (buildNodes ids eid mid ms k none lu).2.2.1 →
      wellLinked ((buildNodes ids eid mid ms k none lu).1 ++ [trailer])
  | [], k, lu, trailer, ht => by
    unfold buildNodes at ht ⊢
    dsimp only at ht ⊢
    rw [List.nil_append]
    exact ⟨ht, trivial⟩
  | m :: rest, k, lu, trailer, ht => by
    unfold buildNodes at ht ⊢
    dsimp only at ht ⊢
    rw [List.cons_append]
    exact ⟨rfl, buildNodes_linkedAfter ids eid mid hids rest (k + 1) (ids k) _ trailer
      (hids k) ht⟩

theorem buildNodes_lastUser_some (ids : Nat → String) (eid mid : String) :
    ∀ (ms : List ChatMessage) (k : Nat) (prev : Option String) (u : String),
      ∃ w, (buildNodes ids eid mid ms k prev (some u)).2.2.2 = some w
  | [], _, _, u => ⟨u, rfl⟩
  | m :: rest, k, prev, u => by
    unfold buildNodes
    dsimp only
    by_cases hr : (if m.role = "system" then "user" else m.role) = "user"
    · rw [if_pos hr]
      exact buildNodes_lastUser_some ids eid mid rest (k + 1) _ (ids k)
    · rw [if_neg hr]
      exact buildNodes_lastUser_some ids eid mid rest (k + 1) _ u

theorem buildNodes_lastUser_of_user (ids : Nat → String) (eid mid : String) :
    ∀ (ms : List ChatMessage) (k : Nat) (prev lu : Option String),
      (∃ m ∈ ms, collapsedRole m = "user") →
      ∃ w, (buildNodes ids eid mid ms k prev lu).2.2.2 = some w
  | [], _, _, _, h => absurd h (by simp)
  | m :: rest, k, prev, lu, h => by
    unfold buildNodes
    dsimp only
    by_cases hr : (if m.role = "system" then "user" else m.role) = "user"
    · rw [if_pos hr]
      exact buildNodes_lastUser_some ids eid mid rest (k + 1) _ (ids k)
    · rw [if_neg hr]
      rcases h with ⟨x, hx, hxr⟩
      unfold collapsedRole at hxr
      rcases List.mem_cons.mp hx with rfl | hx2
      · exact absurd hxr hr
      · exact buildNodes_lastUser_of_user ids eid mid rest (k + 1) _ lu
          ⟨x, hx2, by unfold collapsedRole; exact hxr⟩

/-- C5: for every non-empty message list containing a user-role message, the
builder succeeds and produces exactly `len(messages) + 1` graph nodes forming
a parent chain (first node parentless, every later node parented to exactly
its predecessor, the trailing placeholder included); the last node is the
assistant placeholder with empty content, status pending and the resolved
model id. -/
theorem c5_payload_structure (ids : Nat → String) (eid : String)
    (ms : List ChatMessage) (hids : ∀ j, ids j ≠ "")
    (_hne : ms ≠ []) (hu : ∃ m ∈ ms, m.role = "user") :
    ∃ p ph, buildPayload ids eid ms "gemini-2.5-pro-preview-05-06" = .ok p ∧
      p.messages.length = ms.length + 1 ∧
      wellLinked p.messages ∧
      p.messages.getLast? = some ph ∧
      ph.role = "assistant" ∧ ph.content = "" ∧ ph.status = "pending" ∧
      ph.modelId = some "0337ee08-8305-40c0-b820-123ad42b60cf" := by
  have hcu : ∃ m ∈ ms, collapsedRole m = "user" := by
    rcases hu with ⟨m, hm, hr⟩
    refine ⟨m, hm, ?_⟩
    unfold collapsedRole
    rw [hr]
    rw [if_neg (by decide)]
  obtain ⟨w, hw⟩ := buildNodes_lastUser_of_user ids eid
    "0337ee08-8305-40c0-b820-123ad42b60cf" ms 0 none none hcu
  unfold buildPayload
  rw [show modelRegistryId "gemini-2.5-pro-preview-05-06"
      = some "0337ee08-8305-40c0-b820-123ad42b60cf" from rfl]
  dsimp only
  rw [hw]
  refine ⟨_, _, rfl, ?_, ?_, List.getLast?_concat _, rfl, rfl, rfl, rfl⟩
  · rw [List.length_append, buildNodes_length]
    rfl
  · exact buildNodes_wellLinked ids eid _ hids ms 0 none _ rfl

theorem c5_witness :
    ∃ p ph, buildPayload (fun _ => "x") "e"
        [⟨"user", MessageContent.str "hi"⟩] "gemini-2.5-pro-preview-05-06"
        = .ok p ∧
      p.messages.length = 2 ∧
      wellLinked p.messages ∧
      p.messages.getLast? = some ph ∧
      ph.role = "assistant" ∧ ph.content = "" ∧ ph.status = "pending" ∧
      ph.modelId = some "0337ee08-8305-40c0-b820-123ad42b60cf" :=
  c5_payload_structure (fun _ => "x") "e" [⟨"user", MessageContent.str "hi"⟩]
    (fun _ => (by decide : ("x" : String) ≠ "")) (by decide)
    ⟨⟨"user", MessageContent.str "hi"⟩, List.mem_cons_self _ _, rfl⟩

/-! ## C1: a backend failing every attempt with HTTP 403 -/

theorem cookiePool_ban_mem_empty {p : CookiePool} {c : String}
    (hmem : c ∈ p.cookies) (hemp : p.cookies.filter (fun v => v ≠ c) = []) :
    p.ban c = (⟨[], p.index⟩, true) := by
  rw [cookiePool_ban_spec, if_pos hmem, hemp]
  simp

theorem isEmpty_false_of_ne_nil {l : List String} (h : l ≠ []) :
    l.isEmpty = false := by
  cases l with
  | nil => exact absurd rfl h
  | cons a t => rfl

theorem cookiePool_ban_mem_nonempty {p : CookiePool} {c : String}
    (hmem : c ∈ p.cookies) (hne : p.cookies.filter (fun v => v ≠ c) ≠ []) :
    p.ban c
      = (⟨p.cookies.filter (fun v => v ≠ c),
          p.index % (p.cookies.filter (fun v => v ≠ c)).length⟩, false) := by
  rw [cookiePool_ban_spec, if_pos hmem,
    if_neg (by rw [isEmpty_false_of_ne_nil hne]; simp)]

theorem filter_ne_length_of_nodup :
    ∀ {l : List String} {c : String}, l.Nodup → c ∈ l →
      (l.filter (fun v => v ≠ c)).length = l.length - 1 := by
  intro l c hd hmem
  induction l with
  | nil => cases hmem
  | cons a t ih =>
    rw [List.filter_cons]
    by_cases ha : a = c
    · subst ha
      have hnot : a ∉ t := (List.nodup_cons.mp hd).1
      have ht : t.filter (fun v => v ≠ a) = t := by
        apply List.filter_eq_self.mpr
        intro x hx
        simp only [decide_eq_true_eq]
        exact fun hxa => hnot (hxa ▸ hx)
      rw [if_neg (by simp), ht]
      rfl
    · have hmem2 : c ∈ t := by
        rcases List.mem_cons.mp hmem with h1 | h2
        · exact absurd h1.symm ha
        · exact h2
      have ih2 := ih (List.nodup_cons.mp hd).2 hmem2
      have hpos : 0 < t.length := List.length_pos.mpr (List.ne_nil_of_mem hmem2)
      rw [if_pos (by simp [ha]), List.length_cons, ih2, List.length_cons]
      omega

theorem withCookiesLoop_allBan {α : Type} (e : ArenaAPIError)
    (f : String → Except ArenaAPIError α)
    (hf : ∀ c, f c = .error e) (hb : shouldBanCookie e = true) :
    ∀ (fuel : Nat) (pool : CookiePool) (attempts maxA : Nat)
      (lastExc : Option ArenaAPIError) (calls : Nat),
      PoolInv pool → pool.cookies.length < fuel →
      (attempts < maxA ∨ lastExc = some e) →
      ∃ q k, withCookiesLoop f fuel pool attempts maxA lastExc calls
          = .apiError e q (calls + k) ∧ k ≤ pool.cookies.length ∧
        q.cookies.length = pool.cookies.length - k ∧
        (attempts < maxA → 1 ≤ k) := by
  intro fuel
  induction fuel with
  | zero =>
    intro pool _ _ _ _ _ hfuel _
    omega
  | succ fuel ih =>
    intro pool attempts maxA lastExc calls hinv hfuel hor
    have hlen0 : ¬ pool.cookies.length = 0 := fun hcon =>
      hinv.1 (List.length_eq_zero.mp hcon)
    by_cases hguard : attempts < maxA
    · have hnext := cookiePool_next_of_inv hinv
      have hcmem : pool.cookies.get ⟨pool.index, hinv.2.2⟩ ∈ pool.cookies :=
        List.get_mem _ _ _
      rw [withCookiesLoop, if_pos hguard, if_neg hlen0, hnext]
      dsimp only
      rw [hf _]
      dsimp only
      rw [if_pos hb]
      by_cases hemp :
          pool.cookies.filter (fun v => v ≠ pool.cookies.get ⟨pool.index, hinv.2.2⟩) = []
      · have hban := cookiePool_ban_mem_empty
          (p := ⟨pool.cookies, (pool.index + 1) % pool.cookies.length⟩) hcmem hemp
        rw [hban]
        have hone : pool.cookies = [pool.cookies.get ⟨pool.index, hinv.2.2⟩] :=
          nodup_all_eq hinv.2.1 (filter_ne_nil_iff.mp hemp) hcmem
        refine ⟨⟨[], (pool.index + 1) % pool.cookies.length⟩, 1, rfl, by omega, ?_,
          fun _ => le_refl 1⟩
        rw [hone]
        rfl
      · have hban := cookiePool_ban_mem_nonempty
          (p := ⟨pool.cookies, (pool.index + 1) % pool.cookies.length⟩) hcmem hemp
        rw [hban]
        dsimp only
        have hfl : 0 <
            (pool.cookies.filter
              (fun v => v ≠ pool.cookies.get ⟨pool.index, hinv.2.2⟩)).length :=
          List.length_pos.mpr hemp
        have hlen : (pool.cookies.filter
              (fun v => v ≠ pool.cookies.get ⟨pool.index, hinv.2.2⟩)).length
            = pool.cookies.length - 1 :=
          filter_ne_length_of_nodup hinv.2.1 hcmem
        obtain ⟨q, k, heq, hk, hql, h1⟩ := ih
          ⟨pool.cookies.filter (fun v => v ≠ pool.cookies.get ⟨pool.index, hinv.2.2⟩),
            ((pool.index + 1) % pool.cookies.length) %
              (pool.cookies.filter
                (fun v => v ≠ pool.cookies.get ⟨pool.index, hinv.2.2⟩)).length⟩
          (attempts + 1) _ (some e) (calls + 1)
          ⟨hemp, hinv.2.1.filter _, Nat.mod_lt _ hfl⟩ (by dsimp only; omega)
          (Or.inr rfl)
        dsimp only at hk hql
        refine ⟨q, k + 1, ?_, by omega, by omega, fun _ => by omega⟩
        rw [heq]
        have harith : calls + 1 + k = calls + (k + 1) := by omega
        rw [harith]
        rfl
    · have hlast : lastExc = some e := hor.resolve_left hguard
      rw [withCookiesLoop, if_neg hguard, hlast]
      exact ⟨pool, 0, rfl, Nat.zero_le _, by omega, fun hcon => absurd hcon hguard⟩

/-- C1 (amended): with a pool satisfying the invariant and a backend that
fails every attempt with the same credential-related error (such as HTTP
403), the orchestrator makes at least one and at most `size` attempts (hence
at most `2 x size`), bans exactly one credential per attempt, and finally
fails with the backend's own last error — not with the pool-exhausted
error (which is raised only when no attempt was made at all). -/
theorem c1_all_403_amended {α : Type} (e : ArenaAPIError)
    (f : String → Except ArenaAPIError α) (pool : CookiePool)
    (hinv : PoolInv pool) (hf : ∀ c, f c = .error e)
    (hb : shouldBanCookie e = true) :
    (withCookies f pool).errOf = some e ∧
    1 ≤ (withCookies f pool).callsOf ∧
    (withCookies f pool).callsOf ≤ pool.cookies.length ∧
    (withCookies f pool).callsOf ≤ 2 * pool.cookies.length ∧
    (withCookies f pool).poolOf.cookies.length
      = pool.cookies.length - (withCookies f pool).callsOf := by
  have hlen0 : ¬ pool.cookies.length = 0 := fun hcon =>
    hinv.1 (List.length_eq_zero.mp hcon)
  have hmax : 0 < Nat.max 1 pool.cookies.length * 2 :=
    Nat.mul_pos (Nat.lt_of_lt_of_le Nat.zero_lt_one (Nat.le_max_left _ _))
      (by norm_num)
  obtain ⟨q, k, heq, hk, hql, h1⟩ := withCookiesLoop_allBan e f hf hb
    (pool.cookies.length + 1) pool 0 (Nat.max 1 pool.cookies.length * 2) none 0
    hinv (by omega) (Or.inl hmax)
  have hres : withCookies f pool = .apiError e q (0 + k) := by
    unfold withCookies
    rw [if_neg hlen0]
    exact heq
  rw [hres]
  unfold RunResult.errOf RunResult.callsOf RunResult.poolOf
  dsimp only
  have hk1 := h1 hmax
  exact ⟨rfl, by omega, by omega, by omega, by omega⟩

theorem c1_witness :
    ((withCookies
        (fun _ => Except.error
          (⟨"LMArena returned HTTP 403: forbidden", some 403⟩ : ArenaAPIError))
        (⟨["A", "B"], 0⟩ : CookiePool) : RunResult Unit).errOf
      = some ⟨"LMArena returned HTTP 403: forbidden", some 403⟩) ∧
    1 ≤ ((withCookies
        (fun _ => Except.error
          (⟨"LMArena returned HTTP 403: forbidden", some 403⟩ : ArenaAPIError))
        (⟨["A", "B"], 0⟩ : CookiePool) : RunResult Unit)).callsOf ∧
    ((withCookies
        (fun _ => Except.error
          (⟨"LMArena returned HTTP 403: forbidden", some 403⟩ : ArenaAPIError))
        (⟨["A", "B"], 0⟩ : CookiePool) : RunResult Unit)).callsOf
      ≤ (CookiePool.mk ["A", "B"] 0).cookies.length ∧
    ((withCookies
        (fun _ => Except.error
          (⟨"LMArena returned HTTP 403: forbidden", some 403⟩ : ArenaAPIError))
        (⟨["A", "B"], 0⟩ : CookiePool) : RunResult Unit)).callsOf
      ≤ 2 * (CookiePool.mk ["A", "B"] 0).cookies.length ∧
    ((withCookies
        (fun _ => Except.error
          (⟨"LMArena returned HTTP 403: forbidden", some 403⟩ : ArenaAPIError))
        (⟨["A", "B"], 0⟩ : CookiePool) : RunResult Unit)).poolOf.cookies.length
      = (CookiePool.mk ["A", "B"] 0).cookies.length
        - ((withCookies
            (fun _ => Except.error
              (⟨"LMArena returned HTTP 403: forbidden", some 403⟩ : ArenaAPIError))
            (⟨["A", "B"], 0⟩ : CookiePool) : RunResult Unit)).callsOf :=
  c1_all_403_amended ⟨"LMArena returned HTTP 403: forbidden", some 403⟩
    (fun _ => Except.error ⟨"LMArena returned HTTP 403: forbidden", some 403⟩)
    ⟨["A", "B"], 0⟩ ⟨by decide, by decide, by decide⟩ (fun _ => rfl) (by decide)

/-- C1, the claim as stated is false at a pool of three credentials with a
backend failing every attempt with HTTP 403: the run makes two attempts,
bans two credentials (credential `B` remains in the pool, so not every
credential is banned), and raises the backend's 403 error — whose message is
not the pool-exhausted message. -/
theorem c1_counterexample :
    withCookies
        (fun _ => Except.error
          (⟨"LMArena returned HTTP 403: forbidden", some 403⟩ : ArenaAPIError))
        (⟨["A", "B", "C"], 0⟩ : CookiePool)
      = (.apiError ⟨"LMArena returned HTTP 403: forbidden", some 403⟩
          ⟨["B"], 0⟩ 2 : RunResult Unit) ∧
    (⟨"LMArena returned HTTP 403: forbidden", some 403⟩ : ArenaAPIError)
      ≠ exhaustedError ∧
    (CookiePool.mk ["B"] 0).cookies ≠ [] := by
  decide
